import Mathlib

/-!
# LiveStream repository (`infra/repository/livestream.go`)

A shallow embedding of the data-access layer for the `LiveStream` entity.

* BSON documents (`bson.M`, `primitive.M`) are association lists from field
  names to scalar values, read through `M.get` (first binding wins) and written
  through `M.set` (replace in place, append when absent), which is the
  behaviour of a Go map assignment.
* The document-store driver is an interface `Collection σ` over an engine
  state `σ`; every repository method is written once, against that interface,
  following the Go source statement by statement.
* `mongo : Collection Db` is a reference engine following the documented
  behaviour of the driver calls the repository makes (equality filters,
  `$set` / `$inc`, result limit, matched / modified / deleted counts).
* `time.Now()` is an explicit argument `now` of the methods that read the clock.
* A map handed in by the caller may be the nil map: it is an `Option M`, and a
  method that panics ends in `Outcome.panics`.
-/

namespace LiveStreamRepo

/-! ## BSON values and documents -/

/-- A `primitive.ObjectID`: an opaque identifier. -/
abbrev ObjectID := Nat

/-- The zero identifier `primitive.NilObjectID`. -/
def NilObjectID : ObjectID := 0

/-- Scalar BSON values stored in the fields of a document. BSON integers are
taken as mathematical integers; dates are milliseconds since the epoch. -/
inductive Value where
  | oid (id : ObjectID)
  | str (s : String)
  | bool (b : Bool)
  | int (n : Int)
  | time (t : Int)
  deriving DecidableEq, Repr

/-- A `bson.M` document: field name to value. -/
abbrev M := List (String × Value)

/-- Map lookup `m[k]`. -/
def M.get : M → String → Option Value
  | [], _ => none
  | (k', v) :: rest, k => if k' = k then some v else M.get rest k

/-- Map assignment `m[k] = v`. -/
def M.set : M → String → Value → M
  | [], k, v => [(k, v)]
  | (k', v') :: rest, k, v => if k' = k then (k, v) :: rest else (k', v') :: M.set rest k v

/-- An update document such as `bson.M{"$set": bson.M{...}, "$inc": bson.M{...}}`:
update operator to the fields it applies to. -/
abbrev UpdateDoc := List (String × M)

/-! ## Errors and driver results -/

/-- Errors returned by the repository. -/
inductive Error where
  /-- An error reported by the driver or the server (connectivity, write error). -/
  | engine (msg : String)
  /-- Driver sentinel `mongo.ErrNoDocuments`. -/
  | ErrNoDocuments
  /-- A document could not be decoded into `models.LiveStream`. -/
  | decode (field : String)
  /-- Result of `fmt.Errorf("expected one document to be deleted, got %d", n)`. -/
  | expectedOneDeleted (got : Int)
  /-- Result of `fmt.Errorf("no match for _id %d", id)`. -/
  | noMatchForId (id : ObjectID)
  /-- Result of `fmt.Errorf("expected one document to be updated, got %d", n)`. -/
  | expectedOneUpdated (got : Int)
  deriving DecidableEq, Repr

/-- How a call of a method ends: it returns its result, or it stops in a Go
run-time panic and returns nothing. -/
inductive Outcome (α : Type) where
  | returns (a : α)
  | panics (msg : String)
  deriving DecidableEq, Repr

/-- Driver type `mongo.InsertOneResult`. -/
structure InsertOneResult where
  InsertedID : Value
  deriving DecidableEq, Repr

/-- Driver type `mongo.DeleteResult`. -/
structure DeleteResult where
  DeletedCount : Int
  deriving DecidableEq, Repr

/-- Driver type `mongo.UpdateResult`. -/
structure UpdateResult where
  MatchedCount : Int
  ModifiedCount : Int
  deriving DecidableEq, Repr

/-- Driver type `options.FindOptions`, reduced to the option the repository sets. -/
structure FindOptions where
  Limit : Option Int
  deriving DecidableEq, Repr

/-! ## The record type -/

/-- Modelled from the spec: the record type `models.LiveStream` (package
`models` is not part of the sources at hand). One field per entry of the data
model, persisted under the field names `_id`, `name`, `thumbnail`,
`publisher_id`, `stream_key`, `live_stream_status`, `viewer_count`,
`created_at`, `updated_at`. -/
structure LiveStream where
  ID : ObjectID
  Name : String
  Thumbnail : String
  PublisherId : ObjectID
  StreamKey : String
  LiveStreamStatus : Bool
  ViewerCount : Int
  CreatedAt : Int
  UpdatedAt : Int
  deriving DecidableEq, Repr

/-- Modelled from the spec: the constructor `models.NewLiveStream`. It builds a
new record with both timestamps set to the current time and viewer count zero;
the identifier is left for the store to assign. The initial
`live_stream_status` is a construction policy the spec leaves open, so it is an
argument. -/
def NewLiveStream (name thumbnail : String) (publisherId : ObjectID) (streamKey : String)
    (now : Int) (defaultStatus : Bool) : LiveStream :=
  { ID := NilObjectID
    Name := name
    Thumbnail := thumbnail
    PublisherId := publisherId
    StreamKey := streamKey
    LiveStreamStatus := defaultStatus
    ViewerCount := 0
    CreatedAt := now
    UpdatedAt := now }

/-- Modelled from the spec: BSON encoding of a `models.LiveStream`, one field
per persisted name; a nil identifier is not written, so that the store assigns
one. -/
def LiveStream.toBson (r : LiveStream) : M :=
  (if r.ID = NilObjectID then [] else [("_id", Value.oid r.ID)]) ++
  [ ("name", Value.str r.Name),
    ("thumbnail", Value.str r.Thumbnail),
    ("publisher_id", Value.oid r.PublisherId),
    ("stream_key", Value.str r.StreamKey),
    ("live_stream_status", Value.bool r.LiveStreamStatus),
    ("viewer_count", Value.int r.ViewerCount),
    ("created_at", Value.time r.CreatedAt),
    ("updated_at", Value.time r.UpdatedAt) ]

/-- Decoding of one identifier field: absent gives the zero value, a value of
another type is a decode error. -/
def decodeOid (d : M) (k : String) : Except Error ObjectID :=
  match d.get k with
  | none => .ok NilObjectID
  | some (.oid i) => .ok i
  | some _ => .error (.decode k)

/-- Decoding of one string field. -/
def decodeStr (d : M) (k : String) : Except Error String :=
  match d.get k with
  | none => .ok ""
  | some (.str s) => .ok s
  | some _ => .error (.decode k)

/-- Decoding of one boolean field. -/
def decodeBool (d : M) (k : String) : Except Error Bool :=
  match d.get k with
  | none => .ok false
  | some (.bool b) => .ok b
  | some _ => .error (.decode k)

/-- Decoding of one integer field. -/
def decodeInt (d : M) (k : String) : Except Error Int :=
  match d.get k with
  | none => .ok 0
  | some (.int n) => .ok n
  | some _ => .error (.decode k)

/-- Decoding of one date field. -/
def decodeTime (d : M) (k : String) : Except Error Int :=
  match d.get k with
  | none => .ok 0
  | some (.time t) => .ok t
  | some _ => .error (.decode k)

/-- Modelled from the spec: BSON decoding of a document into
`models.LiveStream` (the `DecodeError` case of the lookups): each persisted
field is read under its name, a field of the wrong type fails the decoding. -/
def LiveStream.fromBson (d : M) : Except Error LiveStream :=
  match decodeOid d "_id" with
  | .error e => .error e
  | .ok id =>
  match decodeStr d "name" with
  | .error e => .error e
  | .ok name =>
  match decodeStr d "thumbnail" with
  | .error e => .error e
  | .ok thumbnail =>
  match decodeOid d "publisher_id" with
  | .error e => .error e
  | .ok publisherId =>
  match decodeStr d "stream_key" with
  | .error e => .error e
  | .ok streamKey =>
  match decodeBool d "live_stream_status" with
  | .error e => .error e
  | .ok status =>
  match decodeInt d "viewer_count" with
  | .error e => .error e
  | .ok viewers =>
  match decodeTime d "created_at" with
  | .error e => .error e
  | .ok created =>
  match decodeTime d "updated_at" with
  | .error e => .error e
  | .ok updated =>
    .ok { ID := id, Name := name, Thumbnail := thumbnail, PublisherId := publisherId,
          StreamKey := streamKey, LiveStreamStatus := status, ViewerCount := viewers,
          CreatedAt := created, UpdatedAt := updated }

/-- Driver call `cursor.All(ctx, &liveStreams)`: decode every document of the
cursor, in order; the first decoding failure is returned. -/
def decodeAll : List M → Except Error (List LiveStream)
  | [] => .ok []
  | d :: ds =>
    match LiveStream.fromBson d with
    | .error e => .error e
    | .ok r =>
      match decodeAll ds with
      | .error e => .error e
      | .ok rs => .ok (r :: rs)

/-- Driver call `res.Decode(&liveStream)` on a `*mongo.SingleResult`: the error
carried by the result if any, else the decoding of its document. -/
def SingleResult.Decode (res : Except Error M) : Except Error LiveStream :=
  match res with
  | .error e => .error e
  | .ok d => LiveStream.fromBson d

/-! ## The driver interface -/

/-- The calls the repository makes on a `*mongo.Collection`, over an engine
state `σ`. Each call returns its result (or error) and the next engine state. -/
structure Collection (σ : Type) where
  InsertOne : σ → M → Except Error InsertOneResult × σ
  DeleteOne : σ → M → Except Error DeleteResult × σ
  DeleteMany : σ → M → Except Error DeleteResult × σ
  UpdateByID : σ → ObjectID → UpdateDoc → Except Error UpdateResult × σ
  FindOne : σ → M → Except Error M × σ
  Find : σ → M → FindOptions → Except Error (List M) × σ

/-! ## The repository (`LiveStreamRepository`) -/

section Repository

variable {σ : Type}

/-- Method `CreateLiveStream` (livestream.go 31-41). -/
def CreateLiveStream (coll : Collection σ) (s : σ) (name thumbnail streamKey : String)
    (publisherId : ObjectID) (now : Int) (defaultStatus : Bool) : Except Error Value × σ :=
  let doc := NewLiveStream name thumbnail publisherId streamKey now defaultStatus
  match coll.InsertOne s doc.toBson with
  | (.error err, s') => (.error err, s')
  | (.ok res, s') => (.ok res.InsertedID, s')

/-- Method `DeleteLiveStream` (livestream.go 43-57); `none` is the `nil` error. -/
def DeleteLiveStream (coll : Collection σ) (s : σ) (id : ObjectID) : Option Error × σ :=
  let filter : M := [("_id", .oid id)]
  match coll.DeleteOne s filter with
  | (.error err, s') => (some err, s')
  | (.ok res, s') =>
    if res.DeletedCount ≠ 1 then
      (some (.expectedOneDeleted res.DeletedCount), s')
    else
      (none, s')

/-- Method `DeleteLiveStreamsByPublisher` (livestream.go 59-69). -/
def DeleteLiveStreamsByPublisher (coll : Collection σ) (s : σ) (id : ObjectID) :
    Option Error × σ :=
  let filter : M := [("publisher_id", .oid id)]
  match coll.DeleteMany s filter with
  | (.error err, s') => (some err, s')
  | (.ok _, s') => (none, s')

/-- Method `updateLiveStream` (livestream.go 71-88). -/
def updateLiveStream (coll : Collection σ) (s : σ) (id : ObjectID) (updateQuery : UpdateDoc) :
    Option Error × σ :=
  match coll.UpdateByID s id updateQuery with
  | (.error err, s') => (some err, s')
  | (.ok res, s') =>
    if res.MatchedCount ≠ 1 then
      (some (.noMatchForId id), s')
    else if res.ModifiedCount ≠ 1 then
      (some (.expectedOneUpdated res.ModifiedCount), s')
    else
      (none, s')

/-- Method `UpdateLiveStream` (livestream.go 90-99). The argument is a Go map:
`none` is the nil map, on which the assignment of line 91 panics before any
engine call is made. -/
def UpdateLiveStream (coll : Collection σ) (s : σ) (id : ObjectID) (newData : Option M)
    (now : Int) : Outcome (Option Error) × σ :=
  match newData with
  | none => (.panics "assignment to entry in nil map", s)
  | some newData =>
    let newData := newData.set "updated_at" (.time now)
    match updateLiveStream coll s id [("$set", newData)] with
    | (some err, s') => (.returns (some err), s')
    | (none, s') => (.returns none, s')

/-- Method `IncrementLiveStreamUserCount` (livestream.go 101-107). -/
def IncrementLiveStreamUserCount (coll : Collection σ) (s : σ) (id : ObjectID) (now : Int) :
    Option Error × σ :=
  let update : UpdateDoc :=
    [ ("$set", [("updated_at", .time now)]),
      ("$inc", [("viewer_count", .int 1)]) ]
  updateLiveStream coll s id update

/-- Method `DecrementLiveStreamUserCount` (livestream.go 109-115). -/
def DecrementLiveStreamUserCount (coll : Collection σ) (s : σ) (id : ObjectID) (now : Int) :
    Option Error × σ :=
  let update : UpdateDoc :=
    [ ("$set", [("updated_at", .time now)]),
      ("$inc", [("viewer_count", .int (-1))]) ]
  updateLiveStream coll s id update

/-- Method `getLiveStreamByParam` (livestream.go 117-130); an error result
carries no record. -/
def getLiveStreamByParam (coll : Collection σ) (s : σ) (fieldName : String) (param : Value) :
    Except Error LiveStream × σ :=
  let filter : M := [(fieldName, param)]
  match coll.FindOne s filter with
  | (res, s') =>
    match SingleResult.Decode res with
    | .error err => (.error err, s')
    | .ok liveStream => (.ok liveStream, s')

/-- Method `getLiveStreamByParamBatch` (livestream.go 132-147). -/
def getLiveStreamByParamBatch (coll : Collection σ) (s : σ) (filter : M) :
    Except Error (List LiveStream) × σ :=
  match coll.Find s filter ⟨none⟩ with
  | (.error err, s') => (.error err, s')
  | (.ok cursor, s') =>
    match decodeAll cursor with
    | .error err => (.error err, s')
    | .ok liveStreams => (.ok liveStreams, s')

/-- Method `GetLiveStreamById` (livestream.go 149-151). -/
def GetLiveStreamById (coll : Collection σ) (s : σ) (id : ObjectID) :
    Except Error LiveStream × σ :=
  getLiveStreamByParam coll s "_id" (.oid id)

/-- Method `GetAllLiveStreamsByUserId` (livestream.go 161-163). -/
def GetAllLiveStreamsByUserId (coll : Collection σ) (s : σ) (id : ObjectID) :
    Except Error (List LiveStream) × σ :=
  getLiveStreamByParamBatch coll s [("publisher_id", .oid id)]

/-- Method `GetLiveStreamFeed` (livestream.go 165-189); the `created_at` window
is commented out in the source and is not part of the filter. -/
def GetLiveStreamFeed (coll : Collection σ) (s : σ) (maxStreams : Int) :
    Except Error (List LiveStream) × σ :=
  let filter : M := [("live_stream_status", .bool true)]
  match coll.Find s filter ⟨some maxStreams⟩ with
  | (.error err, s') => (.error err, s')
  | (.ok cursor, s') =>
    match decodeAll cursor with
    | .error err => (.error err, s')
    | .ok liveStreams => (.ok liveStreams, s')

/-- Method `GetAllLiveStreams` (livestream.go 192-194). -/
def GetAllLiveStreams (coll : Collection σ) (s : σ) : Except Error (List LiveStream) × σ :=
  getLiveStreamByParamBatch coll s []

end Repository

/-! ## A reference engine -/

/-- State of the reference engine: the documents of the collection in storage
order, a fault (when present every call fails with it, as on lost
connectivity), the identifier the driver generates for the next inserted
document that brings none, and the number of documents the server puts in one
reply batch. -/
structure Db where
  docs : List M
  fault : Option String
  nextOid : ObjectID
  batch : Nat
  deriving DecidableEq, Repr

/-- Equality filter: a document matches when each field of the filter is
present in it with exactly that value. The empty filter matches everything. -/
def matchesFilter (filter : M) (d : M) : Bool :=
  filter.all (fun p => decide (d.get p.1 = some p.2))

/-- Replace the first document satisfying `p` by `d'`. -/
def replaceFirst (p : M → Bool) (d' : M) : List M → List M
  | [] => []
  | d :: ds => if p d then d' :: ds else d :: replaceFirst p d' ds

/-- Operator `$set`: assign each listed field (the value a field has in the
map, which is its first binding, is the one assigned). -/
def applySet (d : M) : M → M
  | [] => d
  | (k, v) :: rest => (applySet d rest).set k v

/-- Operator `$inc`: add the amount to each listed field; an absent field
is created with the amount, a non-numeric field or amount is a write error. -/
def applyInc (d : M) : M → Except Error M
  | [] => .ok d
  | (k, .int n) :: rest =>
    match d.get k with
    | none => applyInc (d.set k (.int n)) rest
    | some (.int m) => applyInc (d.set k (.int (m + n))) rest
    | some _ => .error (.engine "Cannot apply $inc to a value of non-numeric type")
  | _ :: _ => .error (.engine "Cannot increment with non-numeric argument")

/-- Apply an update document to a stored document, operator by operator. -/
def applyUpdate (d : M) : UpdateDoc → Except Error M
  | [] => .ok d
  | (op, fields) :: rest =>
    if op = "$set" then applyUpdate (applySet d fields) rest
    else if op = "$inc" then
      match applyInc d fields with
      | .error e => .error e
      | .ok d' => applyUpdate d' rest
    else .error (.engine "Unknown modifier")

/-- Engine call `InsertOne`: a document without `_id` receives the generated
identifier; an identifier already in use is a duplicate-key write error. -/
def Db.InsertOne (db : Db) (doc : M) : Except Error InsertOneResult × Db :=
  match db.fault with
  | some msg => (.error (.engine msg), db)
  | none =>
    let id : Value := (doc.get "_id").getD (.oid db.nextOid)
    let stored : M := if (doc.get "_id").isSome then doc else ("_id", id) :: doc
    if db.docs.any (fun d => decide (d.get "_id" = some id)) then
      (.error (.engine "E11000 duplicate key error"), db)
    else
      (.ok ⟨id⟩, { db with docs := db.docs ++ [stored], nextOid := db.nextOid + 1 })

/-- Engine call `DeleteOne`: remove the first matching document, if any. -/
def Db.DeleteOne (db : Db) (filter : M) : Except Error DeleteResult × Db :=
  match db.fault with
  | some msg => (.error (.engine msg), db)
  | none =>
    if db.docs.any (matchesFilter filter) then
      (.ok ⟨1⟩, { db with docs := db.docs.eraseP (matchesFilter filter) })
    else
      (.ok ⟨0⟩, db)

/-- Engine call `DeleteMany`: remove every matching document. -/
def Db.DeleteMany (db : Db) (filter : M) : Except Error DeleteResult × Db :=
  match db.fault with
  | some msg => (.error (.engine msg), db)
  | none =>
    (.ok ⟨(db.docs.countP (matchesFilter filter) : Nat)⟩,
     { db with docs := db.docs.filter (fun d => !matchesFilter filter d) })

/-- Engine call `UpdateByID`: apply the update to the document with that `_id`.
The driver refuses an update document without any operator before sending
anything. No document with that `_id` gives counts 0 and 0; an update that
leaves the document as it was gives matched 1 and modified 0; `_id` cannot be
changed. -/
def Db.UpdateByID (db : Db) (id : ObjectID) (update : UpdateDoc) :
    Except Error UpdateResult × Db :=
  if update = [] then
    (.error (.engine "update document must have at least one element"), db)
  else
  match db.fault with
  | some msg => (.error (.engine msg), db)
  | none =>
    match db.docs.find? (matchesFilter [("_id", .oid id)]) with
    | none => (.ok ⟨0, 0⟩, db)
    | some d =>
      match applyUpdate d update with
      | .error e => (.error e, db)
      | .ok d' =>
        if d'.get "_id" ≠ d.get "_id" then
          (.error (.engine "Performing an update on the path _id would modify the immutable field _id"), db)
        else if d' = d then
          (.ok ⟨1, 0⟩, db)
        else
          (.ok ⟨1, 1⟩,
           { db with docs := replaceFirst (matchesFilter [("_id", .oid id)]) d' db.docs })

/-- Engine call `FindOne`: the first matching document, or `ErrNoDocuments`. -/
def Db.FindOne (db : Db) (filter : M) : Except Error M × Db :=
  match db.fault with
  | some msg => (.error (.engine msg), db)
  | none =>
    match db.docs.find? (matchesFilter filter) with
    | none => (.error .ErrNoDocuments, db)
    | some d => (.ok d, db)

/-- Conversion to `int64`: the value modulo `2^64`, in the signed range. -/
def wrapInt64 (x : Int) : Int :=
  (x + 2 ^ 63) % 2 ^ 64 - 2 ^ 63

/-- Result limit of `Find` read to the end of the cursor. Unset or 0 is no
limit; a positive limit `n` gives the first `n` documents. For a negative
limit the driver sends the `int64` negation as the limit and asks for a
single batch, so at most one reply batch comes back; the negation of the
least `int64` is negative again and the server refuses a negative limit. -/
def applyLimit (limit : Option Int) (batch : Nat) (ds : List M) : Except Error (List M) :=
  match limit with
  | none => .ok ds
  | some n =>
    if n = 0 then .ok ds
    else if 0 < n then .ok (ds.take n.toNat)
    else if wrapInt64 (-n) < 0 then .error (.engine "Limit value must be non-negative")
    else .ok (ds.take (min (wrapInt64 (-n)).toNat batch))

/-- Engine call `Find` followed by reading the cursor to its end: the matching
documents in storage order, cut to the limit. -/
def Db.Find (db : Db) (filter : M) (opts : FindOptions) : Except Error (List M) × Db :=
  match db.fault with
  | some msg => (.error (.engine msg), db)
  | none =>
    match applyLimit opts.Limit db.batch (db.docs.filter (matchesFilter filter)) with
    | .error e => (.error e, db)
    | .ok ds => (.ok ds, db)

/-- The reference engine as a `Collection`. -/
def mongo : Collection Db :=
  { InsertOne := Db.InsertOne
    DeleteOne := Db.DeleteOne
    DeleteMany := Db.DeleteMany
    UpdateByID := Db.UpdateByID
    FindOne := Db.FindOne
    Find := Db.Find }

/-- An empty, healthy collection. -/
def Db.empty : Db := { docs := [], fault := none, nextOid := 1, batch := 101 }

/-! ## Recording the commands issued -/

/-- One command sent to the engine. -/
inductive Command where
  | InsertOne (doc : M)
  | DeleteOne (filter : M)
  | DeleteMany (filter : M)
  | UpdateByID (id : ObjectID) (update : UpdateDoc)
  | FindOne (filter : M)
  | Find (filter : M) (opts : FindOptions)
  deriving DecidableEq, Repr

/-- The engine `c` with a log: every call is forwarded to `c` and appended to
the list of commands issued so far. -/
def Collection.traced {σ : Type} (c : Collection σ) : Collection (σ × List Command) :=
  { InsertOne := fun s doc =>
      ((c.InsertOne s.1 doc).1, ((c.InsertOne s.1 doc).2, s.2 ++ [.InsertOne doc]))
    DeleteOne := fun s f =>
      ((c.DeleteOne s.1 f).1, ((c.DeleteOne s.1 f).2, s.2 ++ [.DeleteOne f]))
    DeleteMany := fun s f =>
      ((c.DeleteMany s.1 f).1, ((c.DeleteMany s.1 f).2, s.2 ++ [.DeleteMany f]))
    UpdateByID := fun s id u =>
      ((c.UpdateByID s.1 id u).1, ((c.UpdateByID s.1 id u).2, s.2 ++ [.UpdateByID id u]))
    FindOne := fun s f =>
      ((c.FindOne s.1 f).1, ((c.FindOne s.1 f).2, s.2 ++ [.FindOne f]))
    Find := fun s f o =>
      ((c.Find s.1 f o).1, ((c.Find s.1 f o).2, s.2 ++ [.Find f o])) }

/-! ## Predicates, observations and example collections -/

/-- No two documents of the collection share an `_id`. -/
def UniqueIds (docs : List M) : Prop :=
  docs.Pairwise (fun a b => a.get "_id" ≠ b.get "_id")

/-- Every document of the collection is a record: it decodes into
`models.LiveStream`. -/
def AllRecords (docs : List M) : Prop :=
  ∀ d ∈ docs, ∃ r, LiveStream.fromBson d = .ok r

/-- Number of documents with `live_stream_status = true`. -/
def liveCount (docs : List M) : Nat :=
  docs.countP (fun d => decide (d.get "live_stream_status" = some (.bool true)))

/-- Example collection: streams created for owner 10 (two of them) and for
owner 20 (one), on an empty collection. -/
def ownersDb : Db :=
  let s1 := (CreateLiveStream mongo Db.empty "a1" "t" "k1" 10 100 false).2
  let s2 := (CreateLiveStream mongo s1 "a2" "t" "k2" 10 101 false).2
  (CreateLiveStream mongo s2 "b1" "t" "k3" 20 102 false).2

/-- A stored record with the given id, status, viewer count and update time. -/
def sampleDoc (id : ObjectID) (live : Bool) (viewers : Int) (updated : Int) : M :=
  [ ("_id", .oid id), ("name", .str "s"), ("thumbnail", .str "t"),
    ("publisher_id", .oid 10), ("stream_key", .str "k"),
    ("live_stream_status", .bool live), ("viewer_count", .int viewers),
    ("created_at", .time 0), ("updated_at", .time updated) ]

/-- Example collection: 5 live records and 3 records that are not live. -/
def feedDb : Db :=
  { docs := [sampleDoc 1 true 0 0, sampleDoc 2 false 0 0, sampleDoc 3 true 0 0,
             sampleDoc 4 true 0 0, sampleDoc 5 false 0 0, sampleDoc 6 true 0 0,
             sampleDoc 7 false 0 0, sampleDoc 8 true 0 0]
    fault := none
    nextOid := 9
    batch := 101 }

/-- Example collection: one live record. -/
def oneLiveDb : Db :=
  { docs := [sampleDoc 1 true 0 0], fault := none, nextOid := 2, batch := 101 }

/-- The stored document with the given `_id`, if any. -/
def Db.byId (db : Db) (id : ObjectID) : Option M :=
  db.docs.find? (matchesFilter [("_id", .oid id)])

/-- The `updated_at` field of the record with the given `_id`. -/
def updatedAtOf (db : Db) (id : ObjectID) : Option Value :=
  (db.byId id).bind (fun d => d.get "updated_at")

/-- The `viewer_count` field of the record with the given `_id`. -/
def viewerCountOf (db : Db) (id : ObjectID) : Option Value :=
  (db.byId id).bind (fun d => d.get "viewer_count")

/-- One call of `IncrementLiveStreamUserCount id` per clock reading, in order:
the errors returned and the final engine state. -/
def incrementMany {σ : Type} (coll : Collection σ) (s : σ) (id : ObjectID) :
    List Int → List (Option Error) × σ
  | [] => ([], s)
  | t :: ts =>
    ((IncrementLiveStreamUserCount coll s id t).1 ::
        (incrementMany coll (IncrementLiveStreamUserCount coll s id t).2 id ts).1,
      (incrementMany coll (IncrementLiveStreamUserCount coll s id t).2 id ts).2)

/-- One call of `DecrementLiveStreamUserCount id` per clock reading, in order:
the errors returned and the final engine state. -/
def decrementMany {σ : Type} (coll : Collection σ) (s : σ) (id : ObjectID) :
    List Int → List (Option Error) × σ
  | [] => ([], s)
  | t :: ts =>
    ((DecrementLiveStreamUserCount coll s id t).1 ::
        (decrementMany coll (DecrementLiveStreamUserCount coll s id t).2 id ts).1,
      (decrementMany coll (DecrementLiveStreamUserCount coll s id t).2 id ts).2)

/-- Example collection: one record, id 1, viewer count 0, last updated at 5. -/
def staleDb : Db :=
  { docs := [sampleDoc 1 true 0 5], fault := none, nextOid := 2, batch := 101 }

/-- The state kept by viewer-count steps: a healthy engine in which the record
`id` has viewer count `v` and agrees with `d0` outside `viewer_count` and
`updated_at`. -/
def Tracks (db : Db) (id : ObjectID) (d0 : M) (v : Int) : Prop :=
  db.fault = none ∧ ∃ d, db.byId id = some d ∧ d.get "viewer_count" = some (.int v) ∧
    ∀ k, k ≠ "viewer_count" → k ≠ "updated_at" → d.get k = d0.get k

/-! ## Lemmas on documents -/

theorem M.get_set (m : M) (k k' : String) (v : Value) :
    (m.set k v).get k' = if k = k' then some v else m.get k' := by
  induction m with
  | nil => simp [M.set, M.get]
  | cons p rest ih =>
    obtain ⟨a, b⟩ := p
    by_cases h : a = k
    · subst h
      by_cases h' : a = k' <;> simp [M.set, M.get, h']
    · by_cases h' : a = k'
      · subst h'
        have hk : ¬ k = a := fun e => h e.symm
        simp [M.set, M.get, h, hk]
      · simp [M.set, M.get, h, h', ih]

theorem M.get_set_self (m : M) (k : String) (v : Value) : (m.set k v).get k = some v := by
  simp [M.get_set]

theorem M.get_set_of_ne (m : M) (k k' : String) (v : Value) (h : k' ≠ k) :
    (m.set k v).get k' = m.get k' := by
  have h' : ¬ k = k' := fun e => h e.symm
  simp [M.get_set, h']

theorem matchesFilter_single (k : String) (v : Value) (d : M) :
    matchesFilter [(k, v)] d = decide (d.get k = some v) := by
  simp [matchesFilter]

theorem eraseP_eq_filter_of_unique (p : M → Bool) (l : List M)
    (h : l.Pairwise (fun a b => ¬ (p a = true ∧ p b = true))) :
    l.eraseP p = l.filter (fun d => !p d) := by
  induction l with
  | nil => rfl
  | cons a t ih =>
    rw [List.pairwise_cons] at h
    obtain ⟨ha, ht⟩ := h
    by_cases hp : p a = true
    · have hall : ∀ b ∈ t, (!p b) = true := by
        intro b hb
        have := ha b hb
        cases hpb : p b
        · rfl
        · exact absurd ⟨hp, hpb⟩ this
      rw [List.eraseP_cons_of_pos hp]
      rw [List.filter_cons_of_neg (by simp [hp])]
      exact (List.filter_eq_self.mpr hall).symm
    · rw [List.eraseP_cons_of_neg hp]
      rw [List.filter_cons_of_pos (by simp [hp])]
      rw [ih ht]

theorem UniqueIds.at_most_one (docs : List M) (h : UniqueIds docs) (id : ObjectID) :
    docs.Pairwise (fun a b => ¬ (matchesFilter [("_id", .oid id)] a = true ∧
      matchesFilter [("_id", .oid id)] b = true)) := by
  refine List.Pairwise.imp ?_ h
  intro a b hab hboth
  simp only [matchesFilter_single, decide_eq_true_eq] at hboth
  exact hab (hboth.1.trans hboth.2.symm)

/-! ## The update contract (any engine) -/

/-- Claim C2. For every engine, identifier and update document:
`updateLiveStream` returns no error if and only if the engine call succeeds
with `MatchedCount = 1` and `ModifiedCount = 1`; with `MatchedCount` not 1 it
fails with the no-match error whatever `ModifiedCount` is; with
`MatchedCount = 1` and `ModifiedCount` not 1 it fails with the
unexpected-modification-count error; an engine error is returned unchanged.
`UpdateLiveStream` (on a map that is not nil), `IncrementLiveStreamUserCount`
and `DecrementLiveStreamUserCount` return what `updateLiveStream` returns on
their update document. -/
theorem updateLiveStream_contract {σ : Type} (coll : Collection σ) (s : σ) (id : ObjectID)
    (q : UpdateDoc) (newData : M) (now : Int) :
    ((updateLiveStream coll s id q).1 = none ↔
        ∃ res, (coll.UpdateByID s id q).1 = .ok res ∧
          res.MatchedCount = 1 ∧ res.ModifiedCount = 1) ∧
    (∀ res, (coll.UpdateByID s id q).1 = .ok res → res.MatchedCount ≠ 1 →
        (updateLiveStream coll s id q).1 = some (.noMatchForId id)) ∧
    (∀ res, (coll.UpdateByID s id q).1 = .ok res → res.MatchedCount = 1 →
        res.ModifiedCount ≠ 1 →
        (updateLiveStream coll s id q).1 = some (.expectedOneUpdated res.ModifiedCount)) ∧
    (∀ e, (coll.UpdateByID s id q).1 = .error e →
        (updateLiveStream coll s id q).1 = some e) ∧
    (updateLiveStream coll s id q).2 = (coll.UpdateByID s id q).2 ∧
    UpdateLiveStream coll s id (some newData) now =
      (.returns
        (updateLiveStream coll s id [("$set", newData.set "updated_at" (.time now))]).1,
        (updateLiveStream coll s id [("$set", newData.set "updated_at" (.time now))]).2) ∧
    IncrementLiveStreamUserCount coll s id now =
      updateLiveStream coll s id
        [("$set", [("updated_at", .time now)]), ("$inc", [("viewer_count", .int 1)])] ∧
    DecrementLiveStreamUserCount coll s id now =
      updateLiveStream coll s id
        [("$set", [("updated_at", .time now)]), ("$inc", [("viewer_count", .int (-1))])] := by
  refine ⟨?_, ?_, ?_, ?_, ?_, ?_, rfl, rfl⟩
  · unfold updateLiveStream
    rcases h : coll.UpdateByID s id q with ⟨r, s'⟩
    cases r with
    | error e => simp
    | ok res =>
      by_cases h1 : res.MatchedCount = 1
      · by_cases h2 : res.ModifiedCount = 1 <;> simp [h1, h2]
      · simp [h1]
  · intro res hres h1
    unfold updateLiveStream
    rcases h : coll.UpdateByID s id q with ⟨r, s'⟩
    rw [h] at hres
    simp only at hres
    subst hres
    simp [h1]
  · intro res hres h1 h2
    unfold updateLiveStream
    rcases h : coll.UpdateByID s id q with ⟨r, s'⟩
    rw [h] at hres
    simp only at hres
    subst hres
    simp [h1, h2]
  · intro e he
    unfold updateLiveStream
    rcases h : coll.UpdateByID s id q with ⟨r, s'⟩
    rw [h] at he
    simp only at he
    subst he
    rfl
  · unfold updateLiveStream
    rcases h : coll.UpdateByID s id q with ⟨r, s'⟩
    cases r with
    | error e => rfl
    | ok res =>
      by_cases h1 : res.MatchedCount = 1
      · by_cases h2 : res.ModifiedCount = 1 <;> simp [h1, h2]
      · simp [h1]
  · unfold UpdateLiveStream
    simp only
    rcases h : updateLiveStream coll s id [("$set", newData.set "updated_at" (.time now))]
      with ⟨e, s'⟩
    cases e <;> rfl

/-- Claim C10, amended. For every engine, identifier, clock reading `t` and
field map `newData` that is not the nil map, `UpdateLiveStream` appends
exactly one command to the log of commands issued, an update-by-id on `id`
whose document is `{"$set": m}`, where `m` maps `updated_at` to `t` (also when
`newData` brings its own `updated_at`) and agrees with `newData` on every other
key; the timestamp travels in the same update as the caller's fields, and the
method returns the result of that one update. -/
theorem UpdateLiveStream_command {σ : Type} (coll : Collection σ) (s : σ) (log : List Command)
    (id : ObjectID) (newData : Option M) (fields : M) (t : Int)
    (hsome : newData = some fields) :
    ∃ m : M,
      (UpdateLiveStream coll.traced (s, log) id newData t).2.2 =
        log ++ [Command.UpdateByID id [("$set", m)]] ∧
      m.get "updated_at" = some (.time t) ∧
      (∀ k, k ≠ "updated_at" → m.get k = fields.get k) ∧
      UpdateLiveStream coll s id newData t =
        (.returns (updateLiveStream coll s id [("$set", m)]).1,
          (updateLiveStream coll s id [("$set", m)]).2) := by
  subst hsome
  refine ⟨fields.set "updated_at" (.time t), ?_, M.get_set_self _ _ _, ?_, ?_⟩
  · unfold UpdateLiveStream
    simp only
    rcases h : updateLiveStream coll.traced (s, log) id
        [("$set", fields.set "updated_at" (.time t))] with ⟨e, s1⟩
    have h2 : s1 = (updateLiveStream coll.traced (s, log) id
        [("$set", fields.set "updated_at" (.time t))]).2 := by rw [h]
    have h3 : s1.2 = log ++ [Command.UpdateByID id
        [("$set", fields.set "updated_at" (.time t))]] := by
      rw [h2]
      unfold updateLiveStream
      rcases hu : coll.traced.UpdateByID (s, log) id
        [("$set", fields.set "updated_at" (.time t))] with ⟨r, s2⟩
      have hs : s2.2 = log ++ [Command.UpdateByID id
          [("$set", fields.set "updated_at" (.time t))]] := by
        have : s2 = (coll.traced.UpdateByID (s, log) id
          [("$set", fields.set "updated_at" (.time t))]).2 := by rw [hu]
        rw [this]
        rfl
      cases r with
      | error e => simpa using hs
      | ok res =>
        by_cases h1 : res.MatchedCount = 1
        · by_cases h2 : res.ModifiedCount = 1 <;> simp [h1, h2, hs]
        · simp [h1, hs]
    cases e <;> simpa using h3
  · intro k hk
    exact M.get_set_of_ne _ _ _ _ hk
  · unfold UpdateLiveStream
    simp only
    rcases h : updateLiveStream coll s id [("$set", fields.set "updated_at" (.time t))]
      with ⟨e, s1⟩
    cases e <;> rfl

/-- Claim C10 as stated fails: on the nil map `UpdateLiveStream` panics at the
assignment of `updated_at` and the log of commands issued stays empty, so no
update-by-id command is sent. -/
theorem UpdateLiveStream_command_counterexample :
    UpdateLiveStream mongo.traced (staleDb, []) 1 none 9 =
      (.panics "assignment to entry in nil map", (staleDb, [])) ∧
    (UpdateLiveStream mongo.traced (staleDb, []) 1 none 9).2.2 = [] := by
  exact ⟨rfl, rfl⟩

/-! ## Deletion -/

theorem DeleteLiveStream_hit (db : Db) (id : ObjectID) (hf : db.fault = none)
    (h : db.docs.any (matchesFilter [("_id", .oid id)]) = true) :
    DeleteLiveStream mongo db id =
      (none, { db with docs := db.docs.eraseP (matchesFilter [("_id", .oid id)]) }) := by
  simp [DeleteLiveStream, mongo, Db.DeleteOne, hf, h]

theorem DeleteLiveStream_miss (db : Db) (id : ObjectID) (hf : db.fault = none)
    (h : ¬ db.docs.any (matchesFilter [("_id", .oid id)]) = true) :
    DeleteLiveStream mongo db id = (some (.expectedOneDeleted 0), db) := by
  simp [DeleteLiveStream, mongo, Db.DeleteOne, hf, h]

/-- Claim C1. On a healthy engine holding documents with unique ids,
`DeleteLiveStream id` returns no error exactly when a record with that id
exists, which is exactly when the engine reports `DeletedCount = 1`; it then
removes that record and keeps every other one; a second `DeleteLiveStream id`
on the resulting collection fails with the error for `DeletedCount = 0` and
leaves the collection as it is. -/
theorem DeleteLiveStream_exactly_once (db : Db) (id : ObjectID) (hf : db.fault = none)
    (hu : UniqueIds db.docs) :
    ((DeleteLiveStream mongo db id).1 = none ↔
        ∃ d ∈ db.docs, d.get "_id" = some (.oid id)) ∧
    ((DeleteLiveStream mongo db id).1 = none ↔
        (mongo.DeleteOne db [("_id", .oid id)]).1 = .ok ⟨1⟩) ∧
    ((DeleteLiveStream mongo db id).1 = none →
        (DeleteLiveStream mongo db id).2.docs =
          db.docs.filter (fun d => decide (d.get "_id" ≠ some (.oid id))) ∧
        DeleteLiveStream mongo (DeleteLiveStream mongo db id).2 id =
          (some (.expectedOneDeleted 0), (DeleteLiveStream mongo db id).2)) := by
  by_cases hex : db.docs.any (matchesFilter [("_id", .oid id)]) = true
  · have hex' : ∃ d ∈ db.docs, d.get "_id" = some (.oid id) := by
      simpa [matchesFilter_single] using hex
    have hdocs : db.docs.eraseP (matchesFilter [("_id", .oid id)]) =
        db.docs.filter (fun d => decide (d.get "_id" ≠ some (.oid id))) := by
      rw [eraseP_eq_filter_of_unique _ _ (hu.at_most_one db.docs id)]
      apply List.filter_congr
      intro d _
      simp [matchesFilter_single]
    have hrun := DeleteLiveStream_hit db id hf hex
    have hnone : ¬ ((db.docs.eraseP (matchesFilter [("_id", .oid id)])).any
        (matchesFilter [("_id", .oid id)]) = true) := by
      rw [hdocs]
      simp [matchesFilter_single]
    refine ⟨?_, ?_, ?_⟩
    · rw [hrun]
      simp [hex']
    · rw [hrun]
      simp [mongo, Db.DeleteOne, hf, hex]
    · intro _
      rw [hrun]
      exact ⟨hdocs, DeleteLiveStream_miss _ id hf hnone⟩
  · have hex' : ¬ ∃ d ∈ db.docs, d.get "_id" = some (.oid id) := by
      simpa [matchesFilter_single] using hex
    have hrun := DeleteLiveStream_miss db id hf hex
    refine ⟨?_, ?_, ?_⟩
    · rw [hrun]
      simp [hex']
    · rw [hrun]
      simp [mongo, Db.DeleteOne, hf, hex]
    · intro h
      rw [hrun] at h
      simp at h

/-- Claim C6. On a healthy engine, `DeleteLiveStreamsByPublisher publisherId`
returns no error whatever the number of matching records is; afterwards the
collection is the old one without the records of that publisher (none of them
remains, every other record is still there, unchanged and in place), and a
second application succeeds and changes nothing. -/
theorem DeleteLiveStreamsByPublisher_idempotent (db : Db) (publisherId : ObjectID)
    (hf : db.fault = none) :
    (DeleteLiveStreamsByPublisher mongo db publisherId).1 = none ∧
    (DeleteLiveStreamsByPublisher mongo db publisherId).2.docs =
      db.docs.filter (fun d => decide (d.get "publisher_id" ≠ some (.oid publisherId))) ∧
    (∀ d ∈ (DeleteLiveStreamsByPublisher mongo db publisherId).2.docs,
      d.get "publisher_id" ≠ some (.oid publisherId)) ∧
    (∀ d ∈ db.docs, d.get "publisher_id" ≠ some (.oid publisherId) →
      d ∈ (DeleteLiveStreamsByPublisher mongo db publisherId).2.docs) ∧
    DeleteLiveStreamsByPublisher mongo (DeleteLiveStreamsByPublisher mongo db publisherId).2
        publisherId =
      (none, (DeleteLiveStreamsByPublisher mongo db publisherId).2) := by
  have hfilter : ∀ l : List M,
      l.filter (fun d => !matchesFilter [("publisher_id", .oid publisherId)] d) =
      l.filter (fun d => decide (d.get "publisher_id" ≠ some (.oid publisherId))) := by
    intro l
    apply List.filter_congr
    intro d _
    simp [matchesFilter_single]
  have hrun : ∀ b : Db, b.fault = none → DeleteLiveStreamsByPublisher mongo b publisherId =
      (none, { b with docs := (b.docs.filter
        (fun d => decide (d.get "publisher_id" ≠ some (.oid publisherId)))) }) := by
    intro b hb
    simp [DeleteLiveStreamsByPublisher, mongo, Db.DeleteMany, hb, hfilter]
  rw [hrun db hf]
  refine ⟨rfl, rfl, ?_, ?_, ?_⟩
  · intro d hd
    simpa using (List.mem_filter.mp hd).2
  · intro d hd hne
    exact List.mem_filter.mpr ⟨hd, by simpa using hne⟩
  · have h2 := hrun { db with docs := (db.docs.filter
      (fun d => decide (d.get "publisher_id" ≠ some (.oid publisherId)))) } hf
    simp only [h2]
    simp

/-! ## Lookups and listings -/

theorem fromBson_fields (d : M) (r : LiveStream) (h : LiveStream.fromBson d = .ok r) :
    decodeOid d "_id" = .ok r.ID ∧ decodeStr d "name" = .ok r.Name ∧
    decodeStr d "thumbnail" = .ok r.Thumbnail ∧
    decodeOid d "publisher_id" = .ok r.PublisherId ∧
    decodeStr d "stream_key" = .ok r.StreamKey ∧
    decodeBool d "live_stream_status" = .ok r.LiveStreamStatus ∧
    decodeInt d "viewer_count" = .ok r.ViewerCount ∧
    decodeTime d "created_at" = .ok r.CreatedAt ∧
    decodeTime d "updated_at" = .ok r.UpdatedAt := by
  unfold LiveStream.fromBson at h
  repeat' split at h
  all_goals (cases h <;> simp_all)

theorem decodeOid_of_get (d : M) (k : String) (i j : ObjectID)
    (hg : d.get k = some (.oid i)) (hd : decodeOid d k = .ok j) : j = i := by
  simp [decodeOid, hg] at hd
  exact hd.symm

theorem decodeBool_of_get (d : M) (k : String) (a b : Bool)
    (hg : d.get k = some (.bool a)) (hd : decodeBool d k = .ok b) : b = a := by
  simp [decodeBool, hg] at hd
  exact hd.symm

theorem decodeAll_of_records (ds : List M) (h : AllRecords ds) :
    ∃ rs, decodeAll ds = .ok rs ∧
      List.Forall₂ (fun d r => LiveStream.fromBson d = .ok r) ds rs := by
  induction ds with
  | nil => exact ⟨[], rfl, List.Forall₂.nil⟩
  | cons d t ih =>
    obtain ⟨r, hr⟩ := h d (List.mem_cons_self d t)
    obtain ⟨rs, hrs, hall⟩ := ih (fun x hx => h x (List.mem_cons_of_mem d hx))
    exact ⟨r :: rs, by simp [decodeAll, hr, hrs], List.Forall₂.cons hr hall⟩

theorem forall₂_mem_right {α β : Type} {R : α → β → Prop} {l₁ : List α} {l₂ : List β}
    (h : List.Forall₂ R l₁ l₂) : ∀ b ∈ l₂, ∃ a ∈ l₁, R a b := by
  induction h with
  | nil => intro b hb; cases hb
  | cons hab _ ih =>
    intro b hb
    rcases List.mem_cons.mp hb with rfl | hb'
    · exact ⟨_, List.mem_cons_self _ _, hab⟩
    · obtain ⟨a, ha, hr⟩ := ih b hb'
      exact ⟨a, List.mem_cons_of_mem _ ha, hr⟩

theorem decodeAll_of_subset (docs ds : List M) (hw : AllRecords docs)
    (hs : ∀ d ∈ ds, d ∈ docs) :
    ∃ rs, decodeAll ds = .ok rs ∧
      List.Forall₂ (fun d r => LiveStream.fromBson d = .ok r) ds rs :=
  decodeAll_of_records ds (fun d hd => hw d (hs d hd))

/-- Claim C8. On a healthy engine holding records, `GetAllLiveStreamsByUserId
publisherId` returns, without error, the decoding of exactly the documents
whose `publisher_id` equals `publisherId`, each once and in storage order: all
of them belong to that owner, there are as many as matching documents, and
the result is empty when the owner has no stream. After creating 2 streams for
one owner and 1 for another it returns 2 records for the first and 1 for the
second. -/
theorem GetAllLiveStreamsByUserId_exact (db : Db) (publisherId : ObjectID)
    (hf : db.fault = none) (hw : AllRecords db.docs) :
    (∃ rs, GetAllLiveStreamsByUserId mongo db publisherId = (.ok rs, db) ∧
      List.Forall₂ (fun d r => LiveStream.fromBson d = .ok r)
        (db.docs.filter (fun d => decide (d.get "publisher_id" = some (.oid publisherId)))) rs ∧
      (∀ r ∈ rs, r.PublisherId = publisherId) ∧
      rs.length =
        db.docs.countP (fun d => decide (d.get "publisher_id" = some (.oid publisherId))) ∧
      ((∀ d ∈ db.docs, d.get "publisher_id" ≠ some (.oid publisherId)) → rs = [])) ∧
    (GetAllLiveStreamsByUserId mongo ownersDb 10).1.map List.length = .ok 2 ∧
    (GetAllLiveStreamsByUserId mongo ownersDb 20).1.map List.length = .ok 1 := by
  refine ⟨?_, rfl, rfl⟩
  have hflt : db.docs.filter (matchesFilter [("publisher_id", .oid publisherId)]) =
      db.docs.filter (fun d => decide (d.get "publisher_id" = some (.oid publisherId))) := by
    apply List.filter_congr
    intro d _
    simp [matchesFilter_single]
  have hdec := decodeAll_of_subset db.docs
    (db.docs.filter (fun d : M =>
      decide (d.get "publisher_id" = some (Value.oid publisherId)))) hw
    (fun d hd => (List.mem_filter.mp hd).1)
  obtain ⟨rs, hrs, hall⟩ := hdec
  refine ⟨rs, ?_, hall, ?_, ?_, ?_⟩
  · simp [GetAllLiveStreamsByUserId, getLiveStreamByParamBatch, mongo, Db.Find, hf, applyLimit,
      hflt, hrs]
  · intro r hr
    obtain ⟨d, hd, hdr⟩ := forall₂_mem_right hall r hr
    have hg : d.get "publisher_id" = some (.oid publisherId) := by
      simpa using (List.mem_filter.mp hd).2
    exact decodeOid_of_get d "publisher_id" publisherId r.PublisherId hg
      (fromBson_fields d r hdr).2.2.2.1
  · rw [← hall.length_eq, List.countP_eq_length_filter]
  · intro hnone
    have hempty : db.docs.filter
        (fun d => decide (d.get "publisher_id" = some (.oid publisherId))) = [] := by
      rw [List.filter_eq_nil_iff]
      intro d hd
      simpa using hnone d hd
    rw [hempty] at hall
    cases hall
    rfl

/-- Claim C3, amended. On a healthy engine holding records, for every
`maxCount ≥ 1`, `GetLiveStreamFeed maxCount` returns, without error, at most
`maxCount` records, every one of which has `live_stream_status = true`; they
are the decoding of the first live documents in storage order and their number
is the minimum of `maxCount` and the number of live records. With 5 live and 3
non-live records `GetLiveStreamFeed 2` returns exactly 2 records. -/
theorem GetLiveStreamFeed_limit (db : Db) (maxCount : Int) (hf : db.fault = none)
    (hw : AllRecords db.docs) (hpos : 1 ≤ maxCount) :
    (∃ rs, GetLiveStreamFeed mongo db maxCount = (.ok rs, db) ∧
      List.Forall₂ (fun d r => LiveStream.fromBson d = .ok r)
        ((db.docs.filter (fun d =>
          decide (d.get "live_stream_status" = some (.bool true)))).take maxCount.toNat) rs ∧
      (∀ r ∈ rs, r.LiveStreamStatus = true) ∧
      (rs.length : Int) ≤ maxCount ∧
      (rs.length : Int) = min maxCount (liveCount db.docs)) ∧
    (GetLiveStreamFeed mongo feedDb 2).1.map List.length = .ok 2 := by
  refine ⟨?_, rfl⟩
  have hflt : db.docs.filter (matchesFilter [("live_stream_status", .bool true)]) =
      db.docs.filter (fun d => decide (d.get "live_stream_status" = some (.bool true))) := by
    apply List.filter_congr
    intro d _
    simp [matchesFilter_single]
  have hn0 : maxCount ≠ 0 := by omega
  have hn1 : 0 < maxCount := by omega
  have hdec := decodeAll_of_subset db.docs
    ((db.docs.filter (fun d : M =>
      decide (d.get "live_stream_status" = some (Value.bool true)))).take maxCount.toNat) hw
    (fun d hd => (List.mem_filter.mp (List.mem_of_mem_take hd)).1)
  obtain ⟨rs, hrs, hall⟩ := hdec
  have hlen : rs.length = min maxCount.toNat (liveCount db.docs) := by
    rw [← hall.length_eq, List.length_take, liveCount, List.countP_eq_length_filter]
  refine ⟨rs, ?_, hall, ?_, ?_, ?_⟩
  · simp [GetLiveStreamFeed, mongo, Db.Find, hf, applyLimit, hn0, hn1, hflt, hrs]
  · intro r hr
    obtain ⟨d, hd, hdr⟩ := forall₂_mem_right hall r hr
    have hg : d.get "live_stream_status" = some (.bool true) := by
      simpa using (List.mem_filter.mp (List.mem_of_mem_take hd)).2
    exact decodeBool_of_get d "live_stream_status" true r.LiveStreamStatus hg
      (fromBson_fields d r hdr).2.2.2.2.2.1
  · rw [hlen]
    omega
  · rw [hlen]
    omega

/-- Claim C3 as stated fails: on a collection with one live record,
`GetLiveStreamFeed 0` returns that record, one more than `maxCount = 0`, and
`GetLiveStreamFeed (-1)` returns it too, while no sequence has at most `-1`
records. -/
theorem GetLiveStreamFeed_limit_counterexample :
    (∃ rs, (GetLiveStreamFeed mongo oneLiveDb 0).1 = .ok rs ∧ rs.length = 1 ∧
      ¬ ((rs.length : Int) ≤ 0)) ∧
    (∃ rs, (GetLiveStreamFeed mongo oneLiveDb (-1)).1 = .ok rs ∧ rs.length = 1 ∧
      ¬ ((rs.length : Int) ≤ -1)) := by
  refine ⟨⟨_, rfl, rfl, by decide⟩, ⟨_, rfl, rfl, by decide⟩⟩

/-! ## Creation -/

theorem NewLiveStream_toBson (name thumbnail streamKey : String) (publisherId : ObjectID)
    (now : Int) (st : Bool) :
    (NewLiveStream name thumbnail publisherId streamKey now st).toBson =
      [ ("name", .str name), ("thumbnail", .str thumbnail), ("publisher_id", .oid publisherId),
        ("stream_key", .str streamKey), ("live_stream_status", .bool st),
        ("viewer_count", .int 0), ("created_at", .time now), ("updated_at", .time now) ] := by
  simp [NewLiveStream, LiveStream.toBson]

/-- Claim C7. For all arguments and every collection, if `CreateLiveStream`
succeeds and returns identifier `i`, then `i` is an object id and
`GetLiveStreamById i` on the resulting collection succeeds with a record
carrying that id, the name and the publisher id given to `CreateLiveStream`,
and viewer count 0. -/
theorem CreateLiveStream_roundtrip (db db' : Db) (name thumbnail streamKey : String)
    (publisherId : ObjectID) (now : Int) (st : Bool) (i : Value)
    (h : CreateLiveStream mongo db name thumbnail streamKey publisherId now st = (.ok i, db')) :
    ∃ oid r, i = .oid oid ∧ GetLiveStreamById mongo db' oid = (.ok r, db') ∧
      r.ID = oid ∧ r.Name = name ∧ r.PublisherId = publisherId ∧ r.ViewerCount = 0 := by
  unfold CreateLiveStream at h
  simp only [NewLiveStream_toBson, mongo, Db.InsertOne] at h
  cases hfault : db.fault with
  | some msg => simp [hfault] at h
  | none =>
    simp only [hfault] at h
    have hget : M.get [ ("name", Value.str name), ("thumbnail", .str thumbnail),
        ("publisher_id", .oid publisherId), ("stream_key", .str streamKey),
        ("live_stream_status", .bool st), ("viewer_count", .int 0),
        ("created_at", .time now), ("updated_at", .time now) ] "_id" = none := by
      simp [M.get]
    simp only [hget, Option.getD_none, Option.isSome_none] at h
    by_cases hdup : db.docs.any (fun d => decide (d.get "_id" = some (.oid db.nextOid))) = true
    · simp [hdup] at h
    · simp only [hdup] at h
      simp only [Bool.false_eq_true, if_false, Prod.mk.injEq, Except.ok.injEq] at h
      obtain ⟨hi, hdb⟩ := h
      have hnone : db.docs.find? (matchesFilter [("_id", .oid db.nextOid)]) = none := by
        rw [List.find?_eq_none]
        intro d hd hm
        apply hdup
        rw [List.any_eq_true]
        exact ⟨d, hd, by simpa [matchesFilter_single] using hm⟩
      refine ⟨db.nextOid, ?_⟩
      subst hdb
      subst hi
      simp [GetLiveStreamById, getLiveStreamByParam, mongo, Db.FindOne, hfault,
        List.find?_append, hnone, matchesFilter_single, M.get, SingleResult.Decode,
        LiveStream.fromBson, decodeOid, decodeStr, decodeBool, decodeInt, decodeTime]

/-! ## Updates on the reference engine -/

theorem applySet_get (d nd : M) (k : String) :
    (applySet d nd).get k = (nd.get k).or (d.get k) := by
  induction nd with
  | nil => simp [applySet, M.get]
  | cons p rest ih =>
    obtain ⟨a, b⟩ := p
    by_cases h : a = k
    · simp [applySet, M.get, M.get_set, h]
    · simp [applySet, M.get, M.get_set, h, ih]

theorem find?_replaceFirst (p : M → Bool) (d' : M) (l : List M) (hp : p d' = true)
    (h : (l.find? p).isSome) : (replaceFirst p d' l).find? p = some d' := by
  induction l with
  | nil => simp at h
  | cons a t ih =>
    by_cases ha : p a = true
    · simp [replaceFirst, ha, hp]
    · have h' : (t.find? p).isSome := by simpa [List.find?, ha] using h
      simp [replaceFirst, ha, ih h']

/-- What a successful `updateLiveStream` did on the reference engine. -/
theorem updateLiveStream_mongo_ok (db db' : Db) (id : ObjectID) (q : UpdateDoc)
    (h : updateLiveStream mongo db id q = (none, db')) :
    ∃ d d', db.byId id = some d ∧ applyUpdate d q = .ok d' ∧ d' ≠ d ∧
      db'.byId id = some d' ∧ db'.fault = none := by
  unfold updateLiveStream at h
  simp only [mongo, Db.UpdateByID] at h
  by_cases hq : q = []
  · simp [hq] at h
  simp only [hq, if_false] at h
  cases hfault : db.fault with
  | some msg => simp [hfault] at h
  | none =>
    simp only [hfault] at h
    cases hfind : db.docs.find? (matchesFilter [("_id", .oid id)]) with
    | none => simp [hfind] at h
    | some d =>
      simp only [hfind] at h
      cases hup : applyUpdate d q with
      | error e => simp [hup] at h
      | ok d' =>
        simp only [hup] at h
        by_cases hid : d'.get "_id" = d.get "_id"
        · by_cases heq : d' = d
          · simp [heq] at h
          · simp only [hid, heq, ne_eq, not_true_eq_false, if_false] at h
            simp only [not_false_eq_true, if_true, Prod.mk.injEq] at h
            have hdb : db' = { db with docs :=
                (replaceFirst (matchesFilter [("_id", .oid id)]) d' db.docs) } := by
              rw [hfault]
              exact h.2.symm
            have hmd : matchesFilter [("_id", .oid id)] d = true := List.find?_some hfind
            have hmd' : matchesFilter [("_id", .oid id)] d' = true := by
              simp only [matchesFilter_single, decide_eq_true_eq] at hmd ⊢
              rw [hid]
              exact hmd
            refine ⟨d, d', hfind, hup, heq, ?_, ?_⟩
            · rw [hdb]
              exact find?_replaceFirst _ d' db.docs hmd' (by simp [hfind])
            · rw [hdb]
              exact hfault
        · simp [hid] at h

/-- A viewer-count step on the reference engine: the update succeeds and
rewrites the matched document. -/
theorem viewer_step (db : Db) (id : ObjectID) (now delta v : Int) (d : M)
    (hf : db.fault = none) (hfind : db.byId id = some d)
    (hv : d.get "viewer_count" = some (.int v)) (hd : delta ≠ 0) :
    ∃ db', updateLiveStream mongo db id
        [("$set", [("updated_at", .time now)]), ("$inc", [("viewer_count", .int delta)])] =
        (none, db') ∧
      db'.fault = none ∧
      db'.byId id = some ((d.set "updated_at" (.time now)).set "viewer_count"
        (.int (v + delta))) := by
  have hfind' : db.docs.find? (matchesFilter [("_id", .oid id)]) = some d := hfind
  have hvc : (d.set "updated_at" (.time now)).get "viewer_count" = some (.int v) := by
    rw [M.get_set_of_ne _ _ _ _ (by decide)]
    exact hv
  have hup : applyUpdate d
      [("$set", [("updated_at", .time now)]), ("$inc", [("viewer_count", .int delta)])] =
      .ok ((d.set "updated_at" (.time now)).set "viewer_count" (.int (v + delta))) := by
    simp [applyUpdate, applySet, applyInc, hvc]
  have hid : ((d.set "updated_at" (.time now)).set "viewer_count" (.int (v + delta))).get "_id"
      = d.get "_id" := by
    rw [M.get_set_of_ne _ _ _ _ (by decide), M.get_set_of_ne _ _ _ _ (by decide)]
  have hne : (d.set "updated_at" (.time now)).set "viewer_count" (.int (v + delta)) ≠ d := by
    intro heq
    have h1 := congrArg (fun m => M.get m "viewer_count") heq
    simp only [M.get_set_self, hv, Option.some.injEq, Value.int.injEq] at h1
    omega
  have hmd : matchesFilter [("_id", .oid id)] d = true := List.find?_some hfind'
  have hmd' : matchesFilter [("_id", .oid id)]
      ((d.set "updated_at" (.time now)).set "viewer_count" (.int (v + delta))) = true := by
    simp only [matchesFilter_single, decide_eq_true_eq] at hmd ⊢
    rw [hid]
    exact hmd
  refine ⟨{ db with docs := (replaceFirst (matchesFilter [("_id", .oid id)])
      ((d.set "updated_at" (.time now)).set "viewer_count" (.int (v + delta))) db.docs) },
    ?_, hf, ?_⟩
  · unfold updateLiveStream
    simp only [mongo, Db.UpdateByID, hf, hfind', hup, hid, hne]
    simp
  · exact find?_replaceFirst _ _ db.docs hmd' (by simp [hfind'])

theorem Tracks.step (db : Db) (id : ObjectID) (d0 : M) (v now delta : Int) (hd : delta ≠ 0)
    (h : Tracks db id d0 v) :
    ∃ db', updateLiveStream mongo db id
        [("$set", [("updated_at", .time now)]), ("$inc", [("viewer_count", .int delta)])] =
        (none, db') ∧ Tracks db' id d0 (v + delta) := by
  obtain ⟨hf, d, hfind, hv, hrest⟩ := h
  obtain ⟨db', hrun, hf', hfind'⟩ := viewer_step db id now delta v d hf hfind hv hd
  refine ⟨db', hrun, hf', _, hfind', M.get_set_self _ _ _, ?_⟩
  intro k h1 h2
  rw [M.get_set_of_ne _ _ _ _ h1, M.get_set_of_ne _ _ _ _ h2]
  exact hrest k h1 h2

theorem incrementMany_tracks (ts : List Int) :
    ∀ (db : Db) (id : ObjectID) (d0 : M) (v : Int), Tracks db id d0 v →
      (∀ e ∈ (incrementMany mongo db id ts).1, e = none) ∧
      Tracks (incrementMany mongo db id ts).2 id d0 (v + ts.length) := by
  induction ts with
  | nil =>
    intro db id d0 v h
    simpa [incrementMany] using h
  | cons t ts ih =>
    intro db id d0 v h
    obtain ⟨db', hrun, h'⟩ := Tracks.step db id d0 v t 1 (by decide) h
    have hinc : IncrementLiveStreamUserCount mongo db id t = (none, db') := hrun
    obtain ⟨he, ht⟩ := ih db' id d0 (v + 1) h'
    simp only [incrementMany, hinc]
    refine ⟨?_, ?_⟩
    · intro e hmem
      rcases List.mem_cons.mp hmem with rfl | hmem'
      · rfl
      · exact he e hmem'
    · have : v + ((t :: ts).length : Int) = v + 1 + (ts.length : Int) := by
        simp only [List.length_cons]
        push_cast
        ring
      rw [this]
      exact ht

theorem decrementMany_tracks (ts : List Int) :
    ∀ (db : Db) (id : ObjectID) (d0 : M) (v : Int), Tracks db id d0 v →
      (∀ e ∈ (decrementMany mongo db id ts).1, e = none) ∧
      Tracks (decrementMany mongo db id ts).2 id d0 (v - ts.length) := by
  induction ts with
  | nil =>
    intro db id d0 v h
    simpa [decrementMany] using h
  | cons t ts ih =>
    intro db id d0 v h
    obtain ⟨db', hrun, h'⟩ := Tracks.step db id d0 v t (-1) (by decide) h
    have hdec : DecrementLiveStreamUserCount mongo db id t = (none, db') := hrun
    obtain ⟨he, ht⟩ := ih db' id d0 (v + -1) h'
    simp only [decrementMany, hdec]
    refine ⟨?_, ?_⟩
    · intro e hmem
      rcases List.mem_cons.mp hmem with rfl | hmem'
      · rfl
      · exact he e hmem'
    · have : v - ((t :: ts).length : Int) = v + -1 - (ts.length : Int) := by
        simp only [List.length_cons]
        push_cast
        ring
      rw [this]
      exact ht

/-- Claim C4. On a healthy engine, for an existing record with
`viewer_count = v` and any clock readings, N calls of
`IncrementLiveStreamUserCount id` followed by M calls of
`DecrementLiveStreamUserCount id` all return no error and leave
`viewer_count = v + N - M`, an integer that is not clamped at zero (one
decrement from 0 gives -1), and every field other than `viewer_count` and
`updated_at` as it was. -/
theorem viewer_count_additive (db : Db) (id : ObjectID) (d : M) (v : Int)
    (incs decs : List Int) (hf : db.fault = none) (hfind : db.byId id = some d)
    (hv : d.get "viewer_count" = some (.int v)) :
    (∀ e ∈ (incrementMany mongo db id incs).1, e = none) ∧
    (∀ e ∈ (decrementMany mongo (incrementMany mongo db id incs).2 id decs).1, e = none) ∧
    (∃ d', (decrementMany mongo (incrementMany mongo db id incs).2 id decs).2.byId id = some d' ∧
      d'.get "viewer_count" = some (.int (v + incs.length - decs.length)) ∧
      ∀ k, k ≠ "viewer_count" → k ≠ "updated_at" → d'.get k = d.get k) ∧
    viewerCountOf (DecrementLiveStreamUserCount mongo staleDb 1 9).2 1 = some (.int (-1)) := by
  have h0 : Tracks db id d v := ⟨hf, d, hfind, hv, fun _ _ _ => rfl⟩
  obtain ⟨he1, h1⟩ := incrementMany_tracks incs db id d v h0
  obtain ⟨he2, h2⟩ := decrementMany_tracks decs _ id d _ h1
  obtain ⟨_, d', hfind', hv', hrest⟩ := h2
  exact ⟨he1, he2, ⟨d', hfind', hv', hrest⟩, rfl⟩

/-! ## The update timestamp -/

theorem UpdateLiveStream_eq (db : Db) (id : ObjectID) (newData : M) (t : Int) :
    UpdateLiveStream mongo db id (some newData) t =
      (.returns (updateLiveStream mongo db id
          [("$set", newData.set "updated_at" (.time t))]).1,
        (updateLiveStream mongo db id [("$set", newData.set "updated_at" (.time t))]).2) := by
  unfold UpdateLiveStream
  simp only
  rcases h : updateLiveStream mongo db id [("$set", newData.set "updated_at" (.time t))]
    with ⟨e, s'⟩
  cases e <;> rfl

theorem applyInc_single_get (d0 d' : M) (k k' : String) (n : Int) (hk : k' ≠ k)
    (h : applyInc d0 [(k, .int n)] = .ok d') : d'.get k' = d0.get k' := by
  unfold applyInc at h
  split at h
  · simp only [applyInc, Except.ok.injEq] at h
    rw [← h, M.get_set_of_ne _ _ _ _ hk]
  · simp only [applyInc, Except.ok.injEq] at h
    rw [← h, M.get_set_of_ne _ _ _ _ hk]
  · cases h

theorem viewer_update_stamp (d d' : M) (t delta : Int)
    (h : applyUpdate d
      [("$set", [("updated_at", .time t)]), ("$inc", [("viewer_count", .int delta)])] =
      .ok d') : d'.get "updated_at" = some (.time t) := by
  simp only [applyUpdate, applySet] at h
  simp only [show ¬ ("$inc" = "$set") by decide, if_true, if_false] at h
  cases hinc : applyInc (M.set d "updated_at" (.time t)) [("viewer_count", .int delta)] with
  | error e => simp [hinc] at h
  | ok d1 =>
    simp only [hinc, Except.ok.injEq] at h
    subst h
    rw [applyInc_single_get _ _ "viewer_count" "updated_at" delta (by decide) hinc]
    exact M.get_set_self _ _ _

theorem viewer_stamp_of_ok (db db' : Db) (id : ObjectID) (t delta : Int)
    (h : updateLiveStream mongo db id
      [("$set", [("updated_at", .time t)]), ("$inc", [("viewer_count", .int delta)])] =
      (none, db')) : updatedAtOf db' id = some (.time t) := by
  obtain ⟨d, d', _, hup, _, hfind', _⟩ := updateLiveStream_mongo_ok db db' id _ h
  simp only [updatedAtOf, hfind', Option.some_bind]
  exact viewer_update_stamp d d' t delta hup

/-- Claim C9, amended. After a successful `UpdateLiveStream`,
`IncrementLiveStreamUserCount` or `DecrementLiveStreamUserCount` made at clock
reading `t`, the record's `updated_at` is `t`; it is therefore strictly
greater than before exactly when `t` is later than the stored value. -/
theorem update_stamps_clock (db db' : Db) (id : ObjectID) (newData : Option M) (t : Int) :
    (UpdateLiveStream mongo db id newData t = (.returns none, db') →
      updatedAtOf db' id = some (.time t)) ∧
    (IncrementLiveStreamUserCount mongo db id t = (none, db') →
      updatedAtOf db' id = some (.time t)) ∧
    (DecrementLiveStreamUserCount mongo db id t = (none, db') →
      updatedAtOf db' id = some (.time t)) := by
  refine ⟨?_, ?_, ?_⟩
  · intro h
    cases newData with
    | none => simp [UpdateLiveStream] at h
    | some nd =>
    rw [UpdateLiveStream_eq] at h
    simp only [Prod.mk.injEq, Outcome.returns.injEq] at h
    have h' : updateLiveStream mongo db id [("$set", nd.set "updated_at" (.time t))] =
        (none, db') := Prod.ext h.1 h.2
    obtain ⟨d, d', _, hup, _, hfind', _⟩ := updateLiveStream_mongo_ok db db' id _ h'
    simp only [applyUpdate, if_true, Except.ok.injEq] at hup
    simp only [updatedAtOf, hfind', Option.some_bind]
    rw [← hup, applySet_get, M.get_set_self]
    rfl
  · exact viewer_stamp_of_ok db db' id t 1
  · exact viewer_stamp_of_ok db db' id t (-1)

/-- Claim C9 as stated fails: on a record last updated at 5,
`IncrementLiveStreamUserCount` at clock reading 5 succeeds and leaves
`updated_at` at 5, and at clock reading 3 it succeeds and moves `updated_at`
back to 3; in neither case is the new value strictly greater than 5. -/
theorem update_stamps_clock_counterexample :
    updatedAtOf staleDb 1 = some (.time 5) ∧
    (IncrementLiveStreamUserCount mongo staleDb 1 5).1 = none ∧
    updatedAtOf (IncrementLiveStreamUserCount mongo staleDb 1 5).2 1 = some (.time 5) ∧
    ¬ ((5 : Int) < 5) ∧
    (IncrementLiveStreamUserCount mongo staleDb 1 3).1 = none ∧
    updatedAtOf (IncrementLiveStreamUserCount mongo staleDb 1 3).2 1 = some (.time 3) ∧
    ¬ ((5 : Int) < 3) := by
  refine ⟨rfl, rfl, rfl, by decide, rfl, rfl, by decide⟩

/-! ## Instances on the example collections -/

theorem feedDb_records : AllRecords feedDb.docs := by
  intro d hd
  simp only [feedDb, List.mem_cons, List.mem_singleton, List.not_mem_nil, or_false] at hd
  rcases hd with rfl | rfl | rfl | rfl | rfl | rfl | rfl | rfl <;> exact ⟨_, rfl⟩

theorem ownersDb_records : AllRecords ownersDb.docs := by
  intro d hd
  have hdocs : ownersDb.docs =
      [ ("_id", Value.oid 1) ::
          (NewLiveStream "a1" "t" 10 "k1" 100 false).toBson,
        ("_id", Value.oid 2) ::
          (NewLiveStream "a2" "t" 10 "k2" 101 false).toBson,
        ("_id", Value.oid 3) ::
          (NewLiveStream "b1" "t" 20 "k3" 102 false).toBson ] := rfl
  rw [hdocs] at hd
  simp only [List.mem_cons, List.mem_singleton, List.not_mem_nil, or_false] at hd
  rcases hd with rfl | rfl | rfl <;> exact ⟨_, rfl⟩

theorem staleDb_unique : UniqueIds staleDb.docs := by
  simp [UniqueIds, staleDb]

theorem DeleteLiveStream_exactly_once_witness :
    staleDb.fault = none ∧ UniqueIds staleDb.docs ∧
    (DeleteLiveStream mongo staleDb 1).1 = none ∧
    (DeleteLiveStream mongo staleDb 1).2.docs =
      staleDb.docs.filter (fun d => decide (d.get "_id" ≠ some (.oid 1))) ∧
    DeleteLiveStream mongo (DeleteLiveStream mongo staleDb 1).2 1 =
      (some (.expectedOneDeleted 0), (DeleteLiveStream mongo staleDb 1).2) :=
  ⟨rfl, staleDb_unique, rfl,
    ((DeleteLiveStream_exactly_once staleDb 1 rfl staleDb_unique).2.2 rfl).1,
    ((DeleteLiveStream_exactly_once staleDb 1 rfl staleDb_unique).2.2 rfl).2⟩

theorem updateLiveStream_contract_witness :
    (updateLiveStream mongo staleDb 1 [("$set", [("updated_at", .time 5)])]).1 =
      some (.expectedOneUpdated 0) :=
  (updateLiveStream_contract mongo staleDb 1 [("$set", [("updated_at", .time 5)])] [] 0).2.2.1
    ⟨1, 0⟩ rfl rfl (by decide)

theorem GetLiveStreamFeed_limit_witness :
    feedDb.fault = none ∧ AllRecords feedDb.docs ∧ (1 : Int) ≤ 2 ∧
    ∃ rs, GetLiveStreamFeed mongo feedDb 2 = (.ok rs, feedDb) ∧
      List.Forall₂ (fun d r => LiveStream.fromBson d = .ok r)
        ((feedDb.docs.filter (fun d =>
          decide (d.get "live_stream_status" = some (.bool true)))).take (2 : Int).toNat) rs ∧
      (∀ r ∈ rs, r.LiveStreamStatus = true) ∧
      (rs.length : Int) ≤ 2 ∧
      (rs.length : Int) = min (2 : Int) (liveCount feedDb.docs) :=
  ⟨rfl, feedDb_records, by decide,
    (GetLiveStreamFeed_limit feedDb 2 rfl feedDb_records (by decide)).1⟩

theorem viewer_count_additive_witness :
    staleDb.fault = none ∧ staleDb.byId 1 = some (sampleDoc 1 true 0 5) ∧
    (sampleDoc 1 true 0 5).get "viewer_count" = some (.int 0) ∧
    ∃ d', (decrementMany mongo (incrementMany mongo staleDb 1 [6, 7]).2 1 [8]).2.byId 1 =
        some d' ∧
      d'.get "viewer_count" = some (.int (0 + ([6, 7] : List Int).length -
        ([8] : List Int).length)) ∧
      ∀ k, k ≠ "viewer_count" → k ≠ "updated_at" → d'.get k = (sampleDoc 1 true 0 5).get k :=
  ⟨rfl, rfl, rfl,
    (viewer_count_additive staleDb 1 (sampleDoc 1 true 0 5) 0 [6, 7] [8] rfl rfl rfl).2.2.1⟩

theorem DeleteLiveStreamsByPublisher_idempotent_witness :
    ownersDb.fault = none ∧
    (DeleteLiveStreamsByPublisher mongo ownersDb 10).1 = none ∧
    DeleteLiveStreamsByPublisher mongo (DeleteLiveStreamsByPublisher mongo ownersDb 10).2 10 =
      (none, (DeleteLiveStreamsByPublisher mongo ownersDb 10).2) :=
  ⟨rfl, (DeleteLiveStreamsByPublisher_idempotent ownersDb 10 rfl).1,
    (DeleteLiveStreamsByPublisher_idempotent ownersDb 10 rfl).2.2.2.2⟩

theorem CreateLiveStream_roundtrip_witness :
    CreateLiveStream mongo Db.empty "Test Stream" "t" "k" 10 100 false =
      (.ok (.oid 1), (CreateLiveStream mongo Db.empty "Test Stream" "t" "k" 10 100 false).2) ∧
    ∃ oid r, Value.oid 1 = .oid oid ∧
      GetLiveStreamById mongo (CreateLiveStream mongo Db.empty "Test Stream" "t" "k" 10 100 false).2
        oid =
        (.ok r, (CreateLiveStream mongo Db.empty "Test Stream" "t" "k" 10 100 false).2) ∧
      r.ID = oid ∧ r.Name = "Test Stream" ∧ r.PublisherId = 10 ∧ r.ViewerCount = 0 :=
  ⟨rfl, CreateLiveStream_roundtrip Db.empty _ "Test Stream" "t" "k" 10 100 false (.oid 1) rfl⟩

theorem GetAllLiveStreamsByUserId_exact_witness :
    ownersDb.fault = none ∧ AllRecords ownersDb.docs ∧
    ∃ rs, GetAllLiveStreamsByUserId mongo ownersDb 10 = (.ok rs, ownersDb) ∧
      List.Forall₂ (fun d r => LiveStream.fromBson d = .ok r)
        (ownersDb.docs.filter (fun d => decide (d.get "publisher_id" = some (.oid 10)))) rs ∧
      (∀ r ∈ rs, r.PublisherId = 10) ∧
      rs.length = ownersDb.docs.countP (fun d => decide (d.get "publisher_id" = some (.oid 10))) ∧
      ((∀ d ∈ ownersDb.docs, d.get "publisher_id" ≠ some (.oid 10)) → rs = []) :=
  ⟨rfl, ownersDb_records, (GetAllLiveStreamsByUserId_exact ownersDb 10 rfl ownersDb_records).1⟩

theorem update_stamps_clock_witness :
    UpdateLiveStream mongo staleDb 1 (some [("name", .str "n")]) 9 =
      (.returns none, (UpdateLiveStream mongo staleDb 1 (some [("name", .str "n")]) 9).2) ∧
    updatedAtOf (UpdateLiveStream mongo staleDb 1 (some [("name", .str "n")]) 9).2 1 =
      some (.time 9) :=
  ⟨rfl, (update_stamps_clock staleDb _ 1 (some [("name", .str "n")]) 9).1 rfl⟩

theorem UpdateLiveStream_command_witness :
    ∃ m : M,
      (UpdateLiveStream mongo.traced (staleDb, []) 1 (some [("updated_at", .time 0)]) 9).2.2 =
        [] ++ [Command.UpdateByID 1 [("$set", m)]] ∧
      m.get "updated_at" = some (.time 9) ∧
      (∀ k, k ≠ "updated_at" → m.get k = M.get [("updated_at", .time 0)] k) ∧
      UpdateLiveStream mongo staleDb 1 (some [("updated_at", .time 0)]) 9 =
        (.returns (updateLiveStream mongo staleDb 1 [("$set", m)]).1,
          (updateLiveStream mongo staleDb 1 [("$set", m)]).2) :=
  UpdateLiveStream_command mongo staleDb [] 1 (some [("updated_at", .time 0)])
    [("updated_at", .time 0)] 9 rfl

end LiveStreamRepo
